import Mathlib

/-!
# Verification of the `atomic_wait` subsystem (shallow embedding)

This file embeds `source/threads/atomic_wait.cpp` in Lean 4 and proves
properties of its three backends:

* the address-wait (Windows-style) backend — only its timeout conversion is
  modelled, since the rest is a direct proxy to the OS primitive;
* the kernel-futex backend — only `ms_to_time_spec` is modelled, for the same
  reason;
* the portable fallback engine `atomic_wait_table` — modelled in full at the
  level of one bucket: the intrusive doubly linked list of wait contexts, the
  `push_front_wait_ctx` / `remove_wait_ctx` list operations, the
  `notify_one` / `notify_all` scans, and both `wait` overloads together with
  the scoped registration/deregistration performed by `scoped_wait_context`.

Modelling conventions:

* Addresses and context identities are natural numbers.  A `Heap` maps a
  context identity to the record stored in that context (watched address and
  the two intrusive link pointers); `none` models an identity that holds no
  context.  Null pointers are `Option.none`.
* The process memory read by `std::memcmp` is a byte function `Addr → Nat`.
* A bucket's mutable state is `BucketState`: the heap of contexts, the list
  head pointer, and the trace of condition variables signalled so far
  (`cv.notify_all` calls, in program order).  Signalling is the only effect a
  condition variable has in this model; actual thread blocking is recorded in
  the `WaitOutcome` event counts instead.
* The C++ `for` loops of `notify_one` / `notify_all` chase `next` pointers;
  the embedding gives the recursion explicit fuel, and theorems about the
  loops require the fuel to cover the (finite) list, which the inductive
  `Chain` representation predicate supplies.
* Exceptions: the fallback's internal operations can fail only inside
  standard-library calls (constructing the `std::condition_variable` of a
  wait context, waiting on it, locking the mutex).  These failure points are
  injected through an explicit `ExcPoint` / `Bool` parameter; the public
  entry points swallow the failure exactly as the C++ `try { … } catch (...)`
  blocks do.
-/

namespace AtomicWait

/-- A watched memory address (identity only, as in the spec). -/
abbrev Addr := Nat

/-- The identity of one wait context (the C++ object's address). -/
abbrev CtxId := Nat

/-- `wait_context` from `atomic_wait.cpp`: the watched address and the two
intrusive link pointers.  The private condition variable is modelled by the
`signaled` trace of `BucketState` rather than by a field. -/
structure wait_context where
  storage_ptr : Addr
  next : Option CtxId
  prev : Option CtxId
deriving DecidableEq, Repr

/-- The store of wait contexts: which record each context identity holds. -/
abbrev Heap := CtxId → Option wait_context

/-- `ctx->next = v` on the heap (no-op on an identity holding no context). -/
def Heap.setNext (h : Heap) (c : CtxId) (v : Option CtxId) : Heap :=
  fun x => if x = c then (h x).map (fun ctx => { ctx with next := v }) else h x

/-- `ctx->prev = v` on the heap. -/
def Heap.setPrev (h : Heap) (c : CtxId) (v : Option CtxId) : Heap :=
  fun x => if x = c then (h x).map (fun ctx => { ctx with prev := v }) else h x

/-- Placement of a freshly constructed context at identity `c`. -/
def Heap.set (h : Heap) (c : CtxId) (ctx : wait_context) : Heap :=
  fun x => if x = c then some ctx else h x

/-- Read `ctx->next` (treating a dangling identity as null). -/
def ctxNext (h : Heap) (c : CtxId) : Option CtxId :=
  match h c with
  | some ctx => ctx.next
  | none => none

/-- Read `ctx->prev`. -/
def ctxPrev (h : Heap) (c : CtxId) : Option CtxId :=
  match h c with
  | some ctx => ctx.prev
  | none => none

/-- `wait_table_bucket::push_front_wait_ctx`:
`ctx->next = head; if (head) head->prev = ctx; head = ctx;`
Returns the updated heap and the updated `head` pointer. -/
def push_front_wait_ctx (h : Heap) (head : Option CtxId) (c : CtxId) :
    Heap × Option CtxId :=
  let h1 := h.setNext c head
  let h2 :=
    match head with
    | some hd => h1.setPrev hd (some c)
    | none => h1
  (h2, some c)

/-- `wait_table_bucket::remove_wait_ctx`:
`if (head == ctx) head = ctx->next;
 if (ctx->next) ctx->next->prev = ctx->prev;
 if (ctx->prev) ctx->prev->next = ctx->next;`
Each field is re-read from the current heap at the step that reads it in the
C++ code. -/
def remove_wait_ctx (h : Heap) (head : Option CtxId) (c : CtxId) :
    Heap × Option CtxId :=
  let head1 := if head = some c then ctxNext h c else head
  let h1 :=
    match ctxNext h c with
    | some n => h.setPrev n (ctxPrev h c)
    | none => h
  let h2 :=
    match ctxPrev h1 c with
    | some p => h1.setNext p (ctxNext h1 c)
    | none => h1
  (h2, head1)

/-- `Chain h cur prev l`: starting from pointer `cur`, whose first node's
`prev` field must equal `prev`, following `next` pointers traverses exactly
the identities in `l` and ends at null.  `Chain h head none l` is the
well-formedness of a bucket whose list reads `l` front to back. -/
inductive Chain (h : Heap) : Option CtxId → Option CtxId → List CtxId → Prop where
  | nil (prev : Option CtxId) : Chain h none prev []
  | cons {c : CtxId} {ctx : wait_context} {prev : Option CtxId} {rest : List CtxId}
      (hc : h c = some ctx) (hprev : ctx.prev = prev)
      (hrest : Chain h ctx.next (some c) rest) :
      Chain h (some c) prev (c :: rest)

/-- The loop test `cursor->storage_ptr == storage_ptr` of the notify scans. -/
def matchesAddr (h : Heap) (addr : Addr) (x : CtxId) : Bool :=
  match h x with
  | some ctx => decide (ctx.storage_ptr = addr)
  | none => false

/-- One bucket of the wait table: heap of contexts, `head` of the intrusive
list, and the trace of condition variables signalled so far. -/
structure BucketState where
  heap : Heap
  head : Option CtxId
  signaled : List CtxId

/-- The scan loop of `atomic_wait_table::notify_one`: walk `next` pointers
from `cur`; on the first context whose `storage_ptr` equals `addr`, signal
its condition variable (`cv.notify_all()`) and `break`. -/
def notify_one_loop (addr : Addr) (s : BucketState) :
    Option CtxId → Nat → BucketState
  | _, 0 => s
  | none, _ => s
  | some cursor, fuel + 1 =>
    match s.heap cursor with
    | none => s
    | some ctx =>
      if ctx.storage_ptr = addr then { s with signaled := s.signaled ++ [cursor] }
      else notify_one_loop addr s ctx.next fuel

/-- `atomic_wait_table::notify_one(storage_ptr)` on one bucket.  `fuel`
bounds the pointer chase (any bound covering the bucket's finite list). -/
def notify_one (s : BucketState) (addr : Addr) (fuel : Nat) : BucketState :=
  notify_one_loop addr s s.head fuel

/-- The scan loop of `atomic_wait_table::notify_all`: walk the whole list and
signal every context whose `storage_ptr` equals `addr`; no early exit. -/
def notify_all_loop (addr : Addr) :
    BucketState → Option CtxId → Nat → BucketState
  | s, _, 0 => s
  | s, none, _ => s
  | s, some cursor, fuel + 1 =>
    match s.heap cursor with
    | none => s
    | some ctx =>
      if ctx.storage_ptr = addr then
        notify_all_loop addr { s with signaled := s.signaled ++ [cursor] } ctx.next fuel
      else notify_all_loop addr s ctx.next fuel

/-- `atomic_wait_table::notify_all(storage_ptr)` on one bucket. -/
def notify_all (s : BucketState) (addr : Addr) (fuel : Nat) : BucketState :=
  notify_all_loop addr s s.head fuel

/-- The `size` bytes starting at `addr`, as read by `std::memcmp`. -/
def memBytes (mem : Addr → Nat) (addr : Addr) (size : Nat) : List Nat :=
  (List.range size).map fun i => mem (addr + i)

/-- The `scoped_wait_context` constructor: build the context
(`storage_ptr`, null links) at identity `c` and push it at the front of the
bucket's list. -/
def register (s : BucketState) (c : CtxId) (addr : Addr) : BucketState :=
  let h0 := s.heap.set c ⟨addr, none, none⟩
  let p := push_front_wait_ctx h0 s.head c
  ⟨p.1, p.2, s.signaled⟩

/-- The `scoped_wait_context` destructor: unlink the context from the
bucket's list. -/
def unregister (s : BucketState) (c : CtxId) : BucketState :=
  let p := remove_wait_ctx s.heap s.head c
  ⟨p.1, p.2, s.signaled⟩

/-- Where an injected standard-library failure fires during a fallback wait:
nowhere, in the `std::condition_variable` constructor of the wait context
(before `push_front_wait_ctx` runs), or in the condition-variable wait call
itself (after registration; stack unwinding runs the scoped destructor). -/
inductive ExcPoint where
  | normal
  | ctor
  | cvWait
deriving DecidableEq, Repr

/-- The observable outcome of one fallback `wait` call: the bucket state at
return, how many times `cv.wait(lock)` was called, the list of timeout
arguments passed to `cv.wait_for(lock, ·)` in order, and how many
`std::memcmp` comparisons of the watched bytes were made. -/
structure WaitOutcome where
  final : BucketState
  cv_waits : Nat
  cv_timed : List Nat
  compares : Nat

/-- `atomic_wait_table::wait(storage_ptr, comparand, size)` (unbounded), with
`size = comparand.length`.  Returns the outcome and whether an exception
escaped the call (to be caught by the public entry point).  Paths:
the context constructor throws before registration; or the bytes already
differ and the call returns with no sleep (destructor unlinks); or the call
blocks once on the private condition variable and returns on wake
(destructor unlinks); or that wait throws and unwinding unlinks. -/
def table_wait_run (e : ExcPoint) (s : BucketState) (mem : Addr → Nat)
    (addr : Addr) (comparand : List Nat) (c : CtxId) : WaitOutcome × Bool :=
  match e with
  | .ctor => (⟨s, 0, [], 0⟩, true)
  | _ =>
    let s1 := register s c addr
    if memBytes mem addr comparand.length ≠ comparand then
      (⟨unregister s1 c, 0, [], 1⟩, false)
    else
      match e with
      | .cvWait => (⟨unregister s1 c, 1, [], 1⟩, true)
      | _ => (⟨unregister s1 c, 1, [], 1⟩, false)

/-- `atomic_wait_table::wait(storage_ptr, comparand, size, timeout_ms)`
(bounded): identical to the unbounded overload except that the single block
is `cv.wait_for(lock, timeout_ms)`, passed the caller's full timeout. -/
def table_wait_for_run (e : ExcPoint) (s : BucketState) (mem : Addr → Nat)
    (addr : Addr) (comparand : List Nat) (c : CtxId) (timeout_ms : Nat) :
    WaitOutcome × Bool :=
  match e with
  | .ctor => (⟨s, 0, [], 0⟩, true)
  | _ =>
    let s1 := register s c addr
    if memBytes mem addr comparand.length ≠ comparand then
      (⟨unregister s1 c, 0, [], 1⟩, false)
    else
      match e with
      | .cvWait => (⟨unregister s1 c, 0, [timeout_ms], 1⟩, true)
      | _ => (⟨unregister s1 c, 0, [timeout_ms], 1⟩, false)

/-- The four bytes of the `int32_t` comparand `old` as `std::memcmp` reads
them through `&old` (little-endian object representation). -/
def bytes_of_int32 (v : Nat) : List Nat :=
  [v % 256, v / 256 % 256, v / 65536 % 256, v / 16777216 % 256]

/-- Fallback `atomic_wait_native(atom, old)`: forward to the wait table and
swallow any exception (`try { … } catch (...) { }`). -/
def atomic_wait_native (e : ExcPoint) (s : BucketState) (mem : Addr → Nat)
    (addr : Addr) (old : Nat) (c : CtxId) : WaitOutcome :=
  (table_wait_run e s mem addr (bytes_of_int32 old) c).1

/-- Fallback `atomic_wait_for_native(atom, old, ms)`: forward to the bounded
wait and swallow any exception. -/
def atomic_wait_for_native (e : ExcPoint) (s : BucketState) (mem : Addr → Nat)
    (addr : Addr) (old : Nat) (c : CtxId) (timeout_ms : Nat) : WaitOutcome :=
  (table_wait_for_run e s mem addr (bytes_of_int32 old) c timeout_ms).1

/-- `atomic_wait_table::notify_one` as called from the public entry point:
the mutex lock may throw (`exc = true`), in which case nothing is scanned. -/
def notify_one_run (exc : Bool) (s : BucketState) (addr : Addr) (fuel : Nat) :
    BucketState × Bool :=
  if exc then (s, true) else (notify_one s addr fuel, false)

/-- `atomic_wait_table::notify_all` as called from the public entry point. -/
def notify_all_run (exc : Bool) (s : BucketState) (addr : Addr) (fuel : Nat) :
    BucketState × Bool :=
  if exc then (s, true) else (notify_all s addr fuel, false)

/-- Fallback `atomic_notify_one_native(atom)`: forward and swallow. -/
def atomic_notify_one_native (exc : Bool) (s : BucketState) (addr : Addr)
    (fuel : Nat) : BucketState :=
  (notify_one_run exc s addr fuel).1

/-- Fallback `atomic_notify_all_native(atom)`: forward and swallow. -/
def atomic_notify_all_native (exc : Bool) (s : BucketState) (addr : Addr)
    (fuel : Nat) : BucketState :=
  (notify_all_run exc s addr fuel).1

/-- Number of buckets of the wait table (`k_wait_table_size`). -/
def k_wait_table_size : Nat := 257

/-- `atomic_wait_table::get_bucket_for`: hash the address's integer value and
reduce modulo the table size (`std::hash` is a parameter, being
implementation-defined). -/
def get_bucket_for (hasher : Nat → Nat) (address : Nat) : Nat :=
  hasher address % k_wait_table_size

/-- `struct timespec`, restricted to the two fields the futex backend sets. -/
structure timespec where
  tv_sec : Nat
  tv_nsec : Nat
deriving DecidableEq, Repr

/-- Futex backend `ms_to_time_spec(ms)`:
`tv_sec = ms / 1000; tv_nsec = (ms % 1000) * 1'000'000`. -/
def ms_to_time_spec (ms : Nat) : timespec :=
  ⟨ms / 1000, ms % 1000 * 1000000⟩

/-- The timeout argument the address-wait backend hands to the OS:
`static_cast<DWORD>(ms.count())`, i.e. the `int64_t` millisecond count
converted to a 32-bit unsigned value (reduction modulo 2^32). -/
def wait_on_address_timeout_arg (msCount : Int) : Nat :=
  (msCount % 4294967296).toNat

/-! ## Helper lemmas -/

/-- A chain only inspects the heap cells of its own elements, so it transports
along any heap that agrees on them. -/
lemma chain_congr {h h' : Heap} {cur prev : Option CtxId} {l : List CtxId}
    (hc : Chain h cur prev l) (hh : ∀ x ∈ l, h' x = h x) :
    Chain h' cur prev l := by
  induction hc with
  | nil prev => exact Chain.nil prev
  | cons hcEq hprev _ ih =>
    refine Chain.cons ?_ hprev (ih fun x hx => hh x (List.mem_cons_of_mem _ hx))
    rw [hh _ (List.mem_cons_self _ _)]
    exact hcEq

/-- The `notify_one` scan signals exactly the first context of the chain whose
watched address matches, and nothing when none matches. -/
lemma notify_one_loop_spec (addr : Addr) (h : Heap) (hd0 : Option CtxId)
    (sig : List CtxId) {cur prev : Option CtxId} {ids : List CtxId}
    (hc : Chain h cur prev ids) :
    ∀ fuel, ids.length ≤ fuel →
      notify_one_loop addr ⟨h, hd0, sig⟩ cur fuel
        = ⟨h, hd0, sig ++ (ids.find? (matchesAddr h addr)).toList⟩ := by
  induction hc with
  | nil prev =>
    intro fuel _
    cases fuel <;> simp [notify_one_loop]
  | @cons c ctx prev rest hcEq hprev hrest ih =>
    intro fuel hf
    cases fuel with
    | zero => simp at hf
    | succ f =>
      have hm : matchesAddr h addr c = decide (ctx.storage_ptr = addr) := by
        simp [matchesAddr, hcEq]
      by_cases hst : ctx.storage_ptr = addr
      · simp [notify_one_loop, hcEq, hst, List.find?, hm]
      · simp [notify_one_loop, hcEq, hst, List.find?, hm]
        exact ih f (by simpa using Nat.succ_le_succ_iff.mp hf)

/-- The `notify_all` scan signals exactly the matching contexts of the chain,
in list order. -/
lemma notify_all_loop_spec (addr : Addr) (h : Heap) (hd0 : Option CtxId)
    {cur prev : Option CtxId} {ids : List CtxId}
    (hc : Chain h cur prev ids) :
    ∀ fuel, ids.length ≤ fuel → ∀ sig,
      notify_all_loop addr ⟨h, hd0, sig⟩ cur fuel
        = ⟨h, hd0, sig ++ ids.filter (matchesAddr h addr)⟩ := by
  induction hc with
  | nil prev =>
    intro fuel _ sig
    cases fuel <;> simp [notify_all_loop]
  | @cons c ctx prev rest hcEq hprev hrest ih =>
    intro fuel hf sig
    cases fuel with
    | zero => simp at hf
    | succ f =>
      have hrec := ih f (by simpa using Nat.succ_le_succ_iff.mp hf)
      have hm : matchesAddr h addr c = decide (ctx.storage_ptr = addr) := by
        simp [matchesAddr, hcEq]
      by_cases hst : ctx.storage_ptr = addr
      · simp [notify_all_loop, hcEq, hst, List.filter, hm, hrec (sig ++ [c])]
      · simp [notify_all_loop, hcEq, hst, List.filter, hm, hrec sig]

/-- The `notify_one` scan writes neither the heap nor the head pointer. -/
lemma notify_one_loop_frame (addr : Addr) :
    ∀ (fuel : Nat) (s : BucketState) (cur : Option CtxId),
      (notify_one_loop addr s cur fuel).heap = s.heap ∧
        (notify_one_loop addr s cur fuel).head = s.head := by
  intro fuel
  induction fuel with
  | zero => intro s cur; simp [notify_one_loop]
  | succ f ih =>
    intro s cur
    cases cur with
    | none => simp [notify_one_loop]
    | some c =>
      cases hcEq : s.heap c with
      | none => simp [notify_one_loop, hcEq]
      | some ctx =>
        by_cases hst : ctx.storage_ptr = addr
        · simp [notify_one_loop, hcEq, hst]
        · simpa [notify_one_loop, hcEq, hst] using ih s ctx.next

/-- The `notify_all` scan writes neither the heap nor the head pointer. -/
lemma notify_all_loop_frame (addr : Addr) :
    ∀ (fuel : Nat) (s : BucketState) (cur : Option CtxId),
      (notify_all_loop addr s cur fuel).heap = s.heap ∧
        (notify_all_loop addr s cur fuel).head = s.head := by
  intro fuel
  induction fuel with
  | zero => intro s cur; simp [notify_all_loop]
  | succ f ih =>
    intro s cur
    cases cur with
    | none => simp [notify_all_loop]
    | some c =>
      cases hcEq : s.heap c with
      | none => simp [notify_all_loop, hcEq]
      | some ctx =>
        by_cases hst : ctx.storage_ptr = addr
        · have := ih { s with signaled := s.signaled ++ [c] } ctx.next
          simpa [notify_all_loop, hcEq, hst] using this
        · simpa [notify_all_loop, hcEq, hst] using ih s ctx.next

/-- Pushing a fresh context (null links) onto a well-formed bucket list and
removing it again restores the head pointer and every other heap cell,
including the `prev` field of the former head. -/
lemma push_remove_roundtrip (h : Heap) (head : Option CtxId) (ids : List CtxId)
    (c : CtxId) (a : Addr)
    (hchain : Chain h head none ids)
    (hctx : h c = some ⟨a, none, none⟩)
    (hc : c ∉ ids) :
    (remove_wait_ctx (push_front_wait_ctx h head c).1
        (push_front_wait_ctx h head c).2 c).2 = head ∧
    ∀ x, x ≠ c →
      (remove_wait_ctx (push_front_wait_ctx h head c).1
          (push_front_wait_ctx h head c).2 c).1 x = h x := by
  cases hchain with
  | nil =>
    constructor
    · simp [push_front_wait_ctx, remove_wait_ctx, ctxNext, ctxPrev,
            Heap.setNext, Heap.setPrev, hctx]
    · intro x hx
      simp [push_front_wait_ctx, remove_wait_ctx, ctxNext, ctxPrev,
            Heap.setNext, Heap.setPrev, hctx, hx]
  | @cons hd ctx _ rest hcEq hprev hrest =>
    obtain ⟨cs, cn, cp⟩ := ctx
    replace hprev : cp = none := hprev
    subst hprev
    have hne1 : c ≠ hd := by
      intro hEq
      exact hc (hEq ▸ List.mem_cons_self _ _)
    have hne1' : hd ≠ c := hne1.symm
    constructor
    · simp [push_front_wait_ctx, remove_wait_ctx, ctxNext, ctxPrev,
            Heap.setNext, Heap.setPrev, hctx, hne1, hne1']
    · intro x hx
      by_cases hxhd : x = hd
      · subst hxhd
        simp [push_front_wait_ctx, remove_wait_ctx, ctxNext, ctxPrev,
              Heap.setNext, Heap.setPrev, hctx, hcEq, hne1, hne1', hx]
      · simp [push_front_wait_ctx, remove_wait_ctx, ctxNext, ctxPrev,
              Heap.setNext, Heap.setPrev, hctx, hcEq, hne1, hne1', hx, hxhd]

/-- Scoped registration followed by scoped deregistration restores the head
pointer, every heap cell other than the context's own, and hence the bucket's
chain. -/
lemma register_unregister_chain (s : BucketState) (c : CtxId) (addr : Addr)
    (ids : List CtxId)
    (hchain : Chain s.heap s.head none ids) (hc : c ∉ ids) :
    (unregister (register s c addr) c).head = s.head ∧
    Chain (unregister (register s c addr) c).heap
      (unregister (register s c addr) c).head none ids := by
  have hchain0 : Chain (s.heap.set c ⟨addr, none, none⟩) s.head none ids := by
    refine chain_congr hchain fun x hx => ?_
    have hxc : x ≠ c := fun hEq => hc (hEq ▸ hx)
    simp [Heap.set, hxc]
  have hctx0 : (s.heap.set c ⟨addr, none, none⟩) c = some ⟨addr, none, none⟩ := by
    simp [Heap.set]
  have hrt := push_remove_roundtrip (s.heap.set c ⟨addr, none, none⟩) s.head ids
    c addr hchain0 hctx0 hc
  have hhead : (unregister (register s c addr) c).head = s.head := hrt.1
  refine ⟨hhead, ?_⟩
  rw [hhead]
  refine chain_congr hchain fun x hx => ?_
  have hxc : x ≠ c := fun hEq => hc (hEq ▸ hx)
  have := hrt.2 x hxc
  calc (unregister (register s c addr) c).heap x
      = (s.heap.set c ⟨addr, none, none⟩) x := this
    _ = s.heap x := by simp [Heap.set, hxc]

/-! ## Concrete fixtures used by the witnesses -/

/-- A concrete bucket with two registered contexts: context 1 watches address
10, context 2 watches address 20 (a hash collision in one bucket). -/
def demoHeap : Heap := fun x =>
  if x = 1 then some ⟨10, some 2, none⟩
  else if x = 2 then some ⟨20, none, some 1⟩
  else none

/-- The bucket state holding `demoHeap` with head context 1. -/
def demoBucket : BucketState := ⟨demoHeap, some 1, []⟩

/-- The demo bucket's list is the well-formed chain `[1, 2]`. -/
lemma demoChain : Chain demoHeap (some 1) none [1, 2] :=
  @Chain.cons demoHeap 1 ⟨10, some 2, none⟩ none [2] rfl rfl
    (@Chain.cons demoHeap 2 ⟨20, none, some 1⟩ (some 1) [] rfl rfl (Chain.nil _))

/-- A heap with a one-element bucket list (context 2) and a fresh,
not-yet-linked context 5. -/
def demoFreshHeap : Heap := fun x =>
  if x = 5 then some ⟨10, none, none⟩
  else if x = 2 then some ⟨20, none, none⟩
  else none

/-- The one-element chain of `demoFreshHeap`. -/
lemma demoFreshChain : Chain demoFreshHeap (some 2) none [2] :=
  @Chain.cons demoFreshHeap 2 ⟨20, none, none⟩ none [] rfl rfl (Chain.nil _)

/-! ## Claim theorems -/

/-- C1: for every invocation of the fallback's `wait` (unbounded or bounded),
if the bytes at the watched address differ from the expected comparand when
the comparison is made, the call performs no condition-variable wait of
either kind and the context it registered is unlinked before return: the
bucket's chain at return is exactly the original list, which does not contain
the call's context. -/
theorem wait_value_already_differs_returns_immediately
    (e : ExcPoint) (s : BucketState) (mem : Addr → Nat) (addr : Addr)
    (comparand : List Nat) (c : CtxId) (t : Nat) (ids : List CtxId)
    (hmem : memBytes mem addr comparand.length ≠ comparand)
    (hchain : Chain s.heap s.head none ids) (hc : c ∉ ids) :
    ((table_wait_run e s mem addr comparand c).1.cv_waits = 0 ∧
      (table_wait_run e s mem addr comparand c).1.cv_timed = [] ∧
      Chain (table_wait_run e s mem addr comparand c).1.final.heap
        (table_wait_run e s mem addr comparand c).1.final.head none ids) ∧
    ((table_wait_for_run e s mem addr comparand c t).1.cv_waits = 0 ∧
      (table_wait_for_run e s mem addr comparand c t).1.cv_timed = [] ∧
      Chain (table_wait_for_run e s mem addr comparand c t).1.final.heap
        (table_wait_for_run e s mem addr comparand c t).1.final.head none ids) := by
  have hru := register_unregister_chain s c addr ids hchain hc
  cases e <;>
    simp [table_wait_run, table_wait_for_run, hmem, hchain, hru.2]

/-- C1 witness: with all memory bytes 0 and comparand `[1,2,3,4]`, the
unbounded wait on the demo bucket performs no condition-variable wait. -/
theorem wait_value_already_differs_immediate_witness :
    (table_wait_run ExcPoint.normal demoBucket (fun _ => 0) 10 [1, 2, 3, 4]
      5).1.cv_waits = 0 :=
  (wait_value_already_differs_returns_immediately ExcPoint.normal demoBucket
    (fun _ => 0) 10 [1, 2, 3, 4] 5 7 [1, 2] (by decide) demoChain
    (by decide)).1.1

/-- C2: every execution path of the fallback's `wait` — immediate return
because the value differs, return after the condition-variable sleep, or an
injected internal failure (context construction throwing before
registration, or the condition-variable wait throwing, unwound through the
scoped destructor) — leaves the bucket's chain exactly as it was, so the
call's context is never linked after the call exits. -/
theorem wait_always_unregisters_context
    (e : ExcPoint) (s : BucketState) (mem : Addr → Nat) (addr : Addr)
    (comparand : List Nat) (c : CtxId) (t : Nat) (ids : List CtxId)
    (hchain : Chain s.heap s.head none ids) (hc : c ∉ ids) :
    Chain (table_wait_run e s mem addr comparand c).1.final.heap
      (table_wait_run e s mem addr comparand c).1.final.head none ids ∧
    Chain (table_wait_for_run e s mem addr comparand c t).1.final.heap
      (table_wait_for_run e s mem addr comparand c t).1.final.head none ids := by
  have hru := register_unregister_chain s c addr ids hchain hc
  cases e <;> by_cases hmem : memBytes mem addr comparand.length = comparand <;>
    simp [table_wait_run, table_wait_for_run, hmem, hchain, hru.2]

/-- C2 witness: taking the sleeping path (comparand equal to memory) on the
demo bucket, the chain `[1, 2]` is restored on return. -/
theorem wait_always_unregisters_context_witness :
    Chain (table_wait_run ExcPoint.normal demoBucket (fun _ => 0) 10
        [0, 0, 0, 0] 5).1.final.heap
      (table_wait_run ExcPoint.normal demoBucket (fun _ => 0) 10
        [0, 0, 0, 0] 5).1.final.head none [1, 2] :=
  (wait_always_unregisters_context ExcPoint.normal demoBucket (fun _ => 0) 10
    [0, 0, 0, 0] 5 7 [1, 2] demoChain (by decide)).1

/-- C3: `notify_one` signals exactly the first context of the bucket list
whose watched address equals the given address (nothing when none matches),
and — because registration pushes at the front — immediately after a
registration for that address it signals exactly the context just
registered (LIFO). -/
theorem notify_one_signals_first_match (s : BucketState) (addr : Addr)
    (fuel : Nat) (ids : List CtxId)
    (hchain : Chain s.heap s.head none ids) (hfuel : ids.length ≤ fuel) :
    notify_one s addr fuel
      = { s with
          signaled := s.signaled ++ (ids.find? (matchesAddr s.heap addr)).toList } ∧
    ∀ (c : CtxId) (f : Nat),
      notify_one (register s c addr) addr (f + 1)
        = { register s c addr with signaled := s.signaled ++ [c] } := by
  constructor
  · exact notify_one_loop_spec addr s.heap s.head s.signaled hchain fuel hfuel
  · intro c f
    rcases hhd : s.head with _ | hd
    · simp [notify_one, register, push_front_wait_ctx, Heap.set, Heap.setNext,
            notify_one_loop, hhd]
    · by_cases hdc : hd = c
      · subst hdc
        simp [notify_one, register, push_front_wait_ctx, Heap.set, Heap.setNext,
              Heap.setPrev, notify_one_loop, hhd]
      · have hcd : ¬c = hd := fun hEq => hdc hEq.symm
        simp [notify_one, register, push_front_wait_ctx, Heap.set, Heap.setNext,
              Heap.setPrev, notify_one_loop, hhd, hdc, hcd]

/-- C3 witness: on the demo bucket, `notify_one` for address 20 signals
exactly context 2 (the only matching one). -/
theorem notify_one_signals_first_match_witness :
    (notify_one demoBucket 20 2).signaled = [2] := by
  have h := (notify_one_signals_first_match demoBucket 20 2 [1, 2] demoChain
    (by decide)).1
  rw [h]
  decide

/-- C4: `notify_all` signals exactly the contexts of the bucket list whose
watched address equals the given address, in list order and with no early
exit; consequently every signalled context matches the address, so two
distinct addresses sharing a bucket never cross-wake. -/
theorem notify_all_signals_exactly_matching (s : BucketState) (addr : Addr)
    (fuel : Nat) (ids : List CtxId)
    (hchain : Chain s.heap s.head none ids) (hfuel : ids.length ≤ fuel) :
    notify_all s addr fuel
      = { s with signaled := s.signaled ++ ids.filter (matchesAddr s.heap addr) } ∧
    ∀ x, x ∈ (notify_all s addr fuel).signaled →
      x ∈ s.signaled ∨ matchesAddr s.heap addr x = true := by
  have h1 := notify_all_loop_spec addr s.heap s.head hchain fuel hfuel s.signaled
  constructor
  · exact h1
  · intro x hx
    have hx' : x ∈ s.signaled ++ ids.filter (matchesAddr s.heap addr) := by
      have : notify_all s addr fuel
          = ({ s with signaled := s.signaled ++ ids.filter (matchesAddr s.heap addr) } :
            BucketState) := h1
      rw [this] at hx
      exact hx
    rcases List.mem_append.mp hx' with hmem | hmem
    · exact Or.inl hmem
    · exact Or.inr (List.mem_filter.mp hmem).2

/-- C4 witness: on the demo bucket (addresses 10 and 20 colliding in one
bucket), `notify_all` for address 10 signals exactly context 1. -/
theorem notify_all_signals_exactly_matching_witness :
    (notify_all demoBucket 10 2).signaled = [1] := by
  have h := (notify_all_signals_exactly_matching demoBucket 10 2 [1, 2]
    demoChain (by decide)).1
  rw [h]
  decide

/-- C5: none of the four public fallback entry points propagates a failure:
when the wait table throws (context construction failing, or the notify lock
failing), `atomic_wait_native` / `atomic_wait_for_native` degrade to an
immediate return with the bucket untouched and no blocking, and the notify
entries degrade to a no-op; otherwise each entry returns exactly the wait
table's result. -/
theorem native_entry_points_absorb_failures (s : BucketState)
    (mem : Addr → Nat) (addr : Addr) (old : Nat) (c : CtxId) (t : Nat)
    (fuel : Nat) :
    atomic_wait_native ExcPoint.ctor s mem addr old c = ⟨s, 0, [], 0⟩ ∧
    atomic_wait_for_native ExcPoint.ctor s mem addr old c t = ⟨s, 0, [], 0⟩ ∧
    atomic_notify_one_native true s addr fuel = s ∧
    atomic_notify_all_native true s addr fuel = s ∧
    (∀ e, atomic_wait_native e s mem addr old c
        = (table_wait_run e s mem addr (bytes_of_int32 old) c).1) ∧
    (∀ e, atomic_wait_for_native e s mem addr old c t
        = (table_wait_for_run e s mem addr (bytes_of_int32 old) c t).1) ∧
    (∀ b, atomic_notify_one_native b s addr fuel = (notify_one_run b s addr fuel).1) ∧
    (∀ b, atomic_notify_all_native b s addr fuel = (notify_all_run b s addr fuel).1) := by
  refine ⟨rfl, rfl, ?_, ?_, fun e => rfl, fun e => rfl, fun b => rfl, fun b => rfl⟩ <;>
    simp [atomic_notify_one_native, atomic_notify_all_native, notify_one_run,
      notify_all_run]

/-- C6: each fallback `wait` call is single-shot: at most one
condition-variable wait of the matching kind, exactly one byte comparison at
most, and the bounded variant passes its full caller-supplied timeout to the
single `cv.wait_for` call — it never loops on a remaining deadline. -/
theorem fallback_wait_is_single_shot (e : ExcPoint) (s : BucketState)
    (mem : Addr → Nat) (addr : Addr) (comparand : List Nat) (c : CtxId)
    (t : Nat) :
    (table_wait_run e s mem addr comparand c).1.cv_waits ≤ 1 ∧
    (table_wait_run e s mem addr comparand c).1.cv_timed = [] ∧
    (table_wait_run e s mem addr comparand c).1.compares ≤ 1 ∧
    (table_wait_for_run e s mem addr comparand c t).1.cv_waits = 0 ∧
    ((table_wait_for_run e s mem addr comparand c t).1.cv_timed = [] ∨
      (table_wait_for_run e s mem addr comparand c t).1.cv_timed = [t]) ∧
    (table_wait_for_run e s mem addr comparand c t).1.compares ≤ 1 := by
  cases e <;> by_cases hmem : memBytes mem addr comparand.length = comparand <;>
    simp [table_wait_run, table_wait_for_run, hmem]

/-- C7: the futex backend's millisecond-to-timespec conversion is exact:
`tv_sec` is the quotient, `tv_nsec` the remainder scaled to nanoseconds,
their recombination recovers `ms`, and `tv_nsec` is a valid nanosecond
field. -/
theorem ms_to_time_spec_exact (ms : Nat) :
    (ms_to_time_spec ms).tv_sec = ms / 1000 ∧
    (ms_to_time_spec ms).tv_nsec = ms % 1000 * 1000000 ∧
    (ms_to_time_spec ms).tv_sec * 1000 + (ms_to_time_spec ms).tv_nsec / 1000000
      = ms ∧
    (ms_to_time_spec ms).tv_nsec < 1000000000 := by
  refine ⟨rfl, rfl, ?_, ?_⟩ <;> simp [ms_to_time_spec] <;> omega

/-- C8 counterexample: the address-wait backend's timeout argument is not the
identity on representable millisecond counts — at `ms.count() = 2^32` the
value handed to the OS is 0, not `2^32`. -/
theorem wait_on_address_timeout_not_identity :
    (wait_on_address_timeout_arg 4294967296 : Int) ≠ 4294967296 := by
  decide

/-- C8 (amended): the timeout the address-wait backend hands to the OS is
`ms.count()` reduced modulo 2^32 (the C++ `static_cast<DWORD>`); it equals
`ms.count()` unchanged exactly on counts in `[0, 2^32)`. -/
theorem wait_on_address_timeout_arg_mod (ms : Int) :
    (wait_on_address_timeout_arg ms : Int) = ms % 4294967296 ∧
    (0 ≤ ms → ms < 4294967296 → (wait_on_address_timeout_arg ms : Int) = ms) := by
  have hnn : 0 ≤ ms % 4294967296 := Int.emod_nonneg ms (by norm_num)
  constructor
  · simp [wait_on_address_timeout_arg, Int.toNat_of_nonneg hnn]
  · intro h0 hlt
    simp [wait_on_address_timeout_arg, Int.toNat_of_nonneg hnn,
      Int.emod_eq_of_lt h0 hlt, h0]

/-- C8 witness: a count inside `[0, 2^32)` passes through unchanged. -/
theorem wait_on_address_timeout_arg_mod_witness :
    (wait_on_address_timeout_arg 5 : Int) = 5 :=
  (wait_on_address_timeout_arg_mod 5).2 (by decide) (by decide)

/-- C9: neither notify scan modifies the structure of the bucket's intrusive
list: after `notify_one` or `notify_all`, the heap of contexts (hence every
`next`/`prev` link) and the head pointer are exactly as before. -/
theorem notify_preserves_list_structure (s : BucketState) (addr : Addr)
    (fuel : Nat) :
    (notify_one s addr fuel).heap = s.heap ∧
    (notify_one s addr fuel).head = s.head ∧
    (notify_all s addr fuel).heap = s.heap ∧
    (notify_all s addr fuel).head = s.head := by
  have h1 := notify_one_loop_frame addr fuel s s.head
  have h2 := notify_all_loop_frame addr fuel s s.head
  exact ⟨h1.1, h1.2, h2.1, h2.2⟩

/-- C10: pushing a fresh context (null links) onto a well-formed bucket list
and removing it right away restores the bucket exactly: the head pointer is
the original one, every heap cell other than the pushed context's own is
unchanged (in particular the former head's `prev` field), and the original
chain holds again. -/
theorem push_then_remove_restores_bucket (h : Heap) (head : Option CtxId)
    (ids : List CtxId) (c : CtxId) (a : Addr)
    (hchain : Chain h head none ids)
    (hctx : h c = some ⟨a, none, none⟩)
    (hc : c ∉ ids) :
    (remove_wait_ctx (push_front_wait_ctx h head c).1
        (push_front_wait_ctx h head c).2 c).2 = head ∧
    (∀ x, x ≠ c →
      (remove_wait_ctx (push_front_wait_ctx h head c).1
          (push_front_wait_ctx h head c).2 c).1 x = h x) ∧
    Chain (remove_wait_ctx (push_front_wait_ctx h head c).1
        (push_front_wait_ctx h head c).2 c).1
      (remove_wait_ctx (push_front_wait_ctx h head c).1
        (push_front_wait_ctx h head c).2 c).2 none ids := by
  have hrt := push_remove_roundtrip h head ids c a hchain hctx hc
  refine ⟨hrt.1, hrt.2, ?_⟩
  rw [hrt.1]
  exact chain_congr hchain fun x hx => hrt.2 x fun hEq => hc (hEq ▸ hx)

/-- C10 witness: pushing fresh context 5 onto the one-element bucket `[2]`
and removing it restores the head pointer to context 2. -/
theorem push_then_remove_restores_bucket_witness :
    (remove_wait_ctx (push_front_wait_ctx demoFreshHeap (some 2) 5).1
        (push_front_wait_ctx demoFreshHeap (some 2) 5).2 5).2 = some 2 :=
  (push_then_remove_restores_bucket demoFreshHeap (some 2) [2] 5 10
    demoFreshChain rfl (by decide)).1

end AtomicWait
